import Mathlib

/-!
Verification of the darwinium genetic-algorithm engine.

This file gives a shallow embedding, in Lean 4, of the core operators and the
generation pipeline of the darwinium evolutionary-optimization engine:

* the swap mutator (`SimpleSwapMutator.Mutate`),
* the single-point crossover (`SinglePointCrossover.Crossover`),
* the tournament selector with elitism (`TournamentSelector.Select` and
  `NewTournamentSelector`),
* the reference sum fitness evaluator (`SimpleSumFitnessEvaluator.Evaluate`),
* the executor's concurrent stages (`RefreshFitness`, `PerformMutation`) and
  its outer loop (`GeneticAlgorithmExecutor.Loop`).

Modelling conventions:

* Go `float64` fitness values are modelled as `ℚ`.  The engine only compares
  fitness values, copies them around, and sums converted gene values; no claim
  proved here depends on rounding, so a linearly ordered field with decidable
  order is a faithful carrier for these properties.
* Go slices become Lean lists (value semantics).  A `nil` slice and an empty
  slice are indistinguishable through `len`, which is the only way the engine
  inspects them, so both become `[]`.  A `nil` `*Population` pointer is
  modelled as `Option.none` where a nil pointer is a distinct observable state.
* Randomness (`rand.Intn`, `rand.Float64`) is modelled by explicit oracle
  arguments; a draw `rand.Intn(n)` becomes an arbitrary natural number reduced
  `% n`, and the Bernoulli gate sample `rand.Float64()` becomes a `ℚ` argument.
* A Go `context.Context` is observed by this code only through "has it been
  cancelled" checks, so it is modelled by a `Bool` that is `true` when the
  signal is already cancelled.
* Errors: each concrete Go error type in the source becomes one constructor of
  the `GoError` inductive below, carrying the message and the wrapped error
  (Go `Unwrap` chains), with `GoError.nilE` for a nil wrapped error.
-/

/-- Model of the Go error values of the engine.  Constructors correspond, one
to one, to the concrete error types of the source: `InvalidChromosomeError`,
`MutationError`, `CrossoverError`, `SelectionError`, `FitnessEvaluationError`,
the sentinel `ErrPopulationEmpty`, `context.Canceled`, and errors built with
`fmt.Errorf` (with `errorf` for plain messages).  `nilE` stands for a nil
wrapped error. -/
inductive GoError : Type where
  | nilE : GoError
  | invalidChromosome (msg : String) (wrapped : GoError) : GoError
  | mutationE (msg : String) (wrapped : GoError) : GoError
  | crossoverE (msg : String) (wrapped : GoError) : GoError
  | selectionE (msg : String) (wrapped : GoError) : GoError
  | fitnessE (msg : String) (wrapped : GoError) : GoError
  | popEmpty : GoError
  | contextCanceled : GoError
  | errorf (msg : String) : GoError
deriving DecidableEq, Repr

/-- Whether an error value is (at top level) a `MutationError`, the
mutation-stage wrapper. -/
def GoError.isMutationWrapper : GoError → Bool
  | .mutationE _ _ => true
  | _ => false

/-- Whether an error value is (at top level) a `FitnessEvaluationError`, the
fitness-stage wrapper. -/
def GoError.isFitnessWrapper : GoError → Bool
  | .fitnessE _ _ => true
  | _ => false

/-- Whether an `errors.Is`/`errors.As` traversal of the `Unwrap` chain of this
error reaches an `InvalidChromosomeError` (the chromosome-validity kind). -/
def GoError.chainHasInvalidChromosome : GoError → Bool
  | .invalidChromosome _ _ => true
  | .mutationE _ w => w.chainHasInvalidChromosome
  | .crossoverE _ w => w.chainHasInvalidChromosome
  | .selectionE _ w => w.chainHasInvalidChromosome
  | .fitnessE _ w => w.chainHasInvalidChromosome
  | _ => false

/-- Whether an `Unwrap` traversal of this error reaches `context.Canceled`,
i.e. whether the error is cancellation-flavored. -/
def GoError.chainHasContextCanceled : GoError → Bool
  | .contextCanceled => true
  | .mutationE _ w => w.chainHasContextCanceled
  | .crossoverE _ w => w.chainHasContextCanceled
  | .selectionE _ w => w.chainHasContextCanceled
  | .fitnessE _ w => w.chainHasContextCanceled
  | .invalidChromosome _ w => w.chainHasContextCanceled
  | _ => false

/-- `Solution[T]` of the source: a chromosome (ordered sequence of genes) and
its cached `float64` fitness, modelled as `ℚ`. -/
structure Solution (α : Type) where
  chromosome : List α
  fitness : ℚ
deriving DecidableEq, Repr

/-- `Solution.DeepCopy` of the source returns a new solution whose chromosome
has freshly allocated backing storage and the same gene values and fitness.
In the value semantics of lists the result is equal to the input; the fresh
allocation is what justifies translating all later in-place writes to copies
as operations on separate list values. -/
def Solution.deepCopy {α : Type} (s : Solution α) : Solution α :=
  { chromosome := s.chromosome, fitness := s.fitness }

/-- `Population[T]` of the source: the ordered collection of individuals. -/
structure Population (α : Type) where
  individuals : List (Solution α)
deriving DecidableEq, Repr

/-- Swap of two positions of a list, the translation of the Go statement
`ch[firstPosition], ch[secondPosition] = ch[secondPosition], ch[firstPosition]`
in `SimpleSwapMutator.Mutate`: both reads happen before both writes.  Out of
range positions leave the list unchanged (the source guarantees both indices
are in range). -/
def listSwap {α : Type} (l : List α) (i j : ℕ) : List α :=
  match l[i]?, l[j]? with
  | some a, some b => (l.set i b).set j a
  | _, _ => l

/-- Number of positions at which two lists differ, position by position, over
the index range of the first list. -/
def diffCount {α : Type} [DecidableEq α] (l1 l2 : List α) : ℕ :=
  ((Finset.range l1.length).filter (fun k => l1[k]? ≠ l2[k]?)).card

/-- `SimpleSwapMutator.Mutate` (src/unnamed/part_009, lines 44-73).

`rate` is the mutator's `mutationRate`; `cancelled` models `ctx.Err() != nil`;
`gateSample` models the draw `rand.Float64()`; `r1` and `r2` model the draws
`rand.Intn(n)` and `rand.Intn(n-1)` and are reduced modulo the respective
bounds.  The source mutates `*chromosome` in place and returns an error; here
the (possibly unchanged) chromosome is returned in the `ok` case, and an error
means the chromosome was not written at all.

Source order of checks, preserved here: emptiness, length `< 2`, the
probability gate (`rand.Float64() > s.mutationRate` is a no-op success), and
only then the cancellation check. -/
def mutate {α : Type} (rate : ℚ) (cancelled : Bool) (gateSample : ℚ)
    (r1 r2 : ℕ) (chromosome : List α) : Except GoError (List α) :=
  if chromosome.length = 0 then
    .error (.mutationE "cannot mutate chromosome"
      (.invalidChromosome "empty chromosome found" .nilE))
  else if chromosome.length < 2 then
    .error (.mutationE "cannot mutate chromosome"
      (.invalidChromosome "chromosome must contain at least 2 genes" .nilE))
  else if rate < gateSample then
    .ok chromosome
  else if cancelled then
    .error (.mutationE "context cancelled" .contextCanceled)
  else
    let n := chromosome.length
    let firstPosition := r1 % n
    let sp := r2 % (n - 1)
    let secondPosition := if firstPosition = sp then sp + 1 else sp
    .ok (listSwap chromosome firstPosition secondPosition)

/-- `SinglePointCrossover.Crossover` (src/unnamed/part_011, lines 38-68).

`r` models the draw `rand.Intn(parent1Len-1)`, reduced modulo `parent1Len-1`,
so that `crossoverPoint = r % (len-1) + 1` ranges over `{1, ..., len-1}`
exactly as in the source.  The length-1 case copies both parents into fresh
offspring; with value semantics the copies equal the parents. -/
def crossover {α : Type} (parent1 parent2 : List α) (r : ℕ) :
    Except GoError (List α × List α) :=
  if parent1.length = 0 ∨ parent2.length = 0 then
    .error (.crossoverE "cannot perform crossover"
      (.invalidChromosome "parent chromosomes cannot be empty" .nilE))
  else if parent1.length ≠ parent2.length then
    .error (.crossoverE "cannot perform crossover"
      (.invalidChromosome "parent chromosomes must be of the same length" .nilE))
  else if parent1.length = 1 then
    .ok (parent1, parent2)
  else
    let crossoverPoint := r % (parent1.length - 1) + 1
    .ok (parent1.take crossoverPoint ++ parent2.drop crossoverPoint,
         parent2.take crossoverPoint ++ parent1.drop crossoverPoint)

/-- The default `Solution` value used to totalize indexing into the selection
pool.  The source indexes the pool only with results of `rand.Intn(poolSize)`,
which are always in range, so this default is never observed. -/
def defaultSolution {α : Type} : Solution α :=
  { chromosome := [], fitness := 0 }

/-- The inner tournament of `TournamentSelector.Select` (selection.go, lines
104-113): starting from the first drawn candidate `w0`, each further candidate
`c` replaces the current winner exactly when its fitness strictly exceeds the
current winner's fitness (`pool[c].Fitness > pool[w].Fitness`). -/
def tournamentWinnerIdx (f : ℕ → ℚ) (w0 : ℕ) (cs : List ℕ) : ℕ :=
  cs.foldl (fun w c => if f w < f c then c else w) w0

/-- The descending-by-fitness sort of `Select`'s elitism branch.  The source
uses Go's unstable `sort.Slice` with `less i j = fitness i > fitness j`; any
result is a permutation of the input that is pairwise sorted by non-increasing
fitness, and `mergeSort` with `le a b = (b.fitness ≤ a.fitness)` is one such
determinization.  Every property proved below depends only on the permutation
and sortedness facts, not on the tie-break the sort happens to make. -/
def sortDesc {α : Type} (l : List (Solution α)) : List (Solution α) :=
  l.mergeSort (fun a b => decide (b.fitness ≤ a.fitness))

/-- `TournamentSelector[T]` of selection.go: tournament size and elite count,
Go `int` fields modelled as `ℤ`. -/
structure TournamentSelector where
  tournamentSize : ℤ
  numElites : ℤ
deriving DecidableEq, Repr

/-- `NewTournamentSelector` (selection.go, lines 55-67): configuration
validation of the two parameters. -/
def NewTournamentSelector (tournamentSize numElites : ℤ) :
    Except GoError TournamentSelector :=
  if tournamentSize ≤ 0 then
    .error (.selectionE "invalid tournament size"
      (.errorf "tournament size must be positive"))
  else if numElites < 0 then
    .error (.selectionE "invalid number of elites"
      (.errorf "number of elites cannot be negative"))
  else
    .ok { tournamentSize := tournamentSize, numElites := numElites }

/-- `TournamentSelector.Select` (selection.go, lines 72-116), instrumented to
also return the post-call contents of the input population.

The input is `Option (Population α)`: `none` models a nil `*Population`; a nil
or empty `Individuals` slice both have `len 0` and are the `length = 0` case.
`draws slot round` models the successive `rand.Intn(selectionPoolSize)` draws
of slot `slot` (`round = 0` is the initial winner draw), reduced `% poolSize`
as `rand.Intn` guarantees.

The first component of the result is the content of `population.Individuals`
when the call returns.  The source writes only into `sortedIndividuals` (a
slice freshly allocated by `make` and filled by `copy` before `sort.Slice`
permutes it) and into the freshly allocated `offspring` slice, whose elements
are `DeepCopy` results with fresh chromosome storage; it never writes through
`population.Individuals` or any chromosome reachable from it, which the
translation mirrors by threading the input list through unchanged. -/
def selectTrace {α : Type} (ts : TournamentSelector)
    (population : Option (Population α)) (draws : ℕ → ℕ → ℕ) :
    Option (Population α) × Except GoError (Population α) :=
  match population with
  | none =>
    (none, .error (.selectionE "cannot perform selection on nil or empty population" .popEmpty))
  | some pop =>
    if pop.individuals.length = 0 then
      (some pop, .error (.selectionE "cannot perform selection on nil or empty population" .popEmpty))
    else
      let populationSize := pop.individuals.length
      if ts.numElites ≥ (populationSize : ℤ) then
        (some pop, .error (.selectionE "number of elites is greater than or equal to population size" .nilE))
      else
        let numElitesN := ts.numElites.toNat
        let elitePool : List (Solution α) × List (Solution α) :=
          if 0 < ts.numElites then
            (((sortDesc pop.individuals).take numElitesN).map Solution.deepCopy,
             (sortDesc pop.individuals).drop numElitesN)
          else
            ([], pop.individuals)
        let selectionPool := elitePool.2
        let numToSelect := populationSize - numElitesN
        let selectionPoolSize := selectionPool.length
        let winners := (List.range numToSelect).map (fun slot =>
          let candidates := (List.range (ts.tournamentSize.toNat - 1)).map
            (fun j => draws slot (j + 1) % selectionPoolSize)
          let w := tournamentWinnerIdx
            (fun idx => (selectionPool.getD idx defaultSolution).fitness)
            (draws slot 0 % selectionPoolSize) candidates
          (selectionPool.getD w defaultSolution).deepCopy)
        (some pop, .ok { individuals := elitePool.1 ++ winners })

/-- `TournamentSelector.Select`: the returned population (or error) of
`selectTrace`. -/
def select {α : Type} (ts : TournamentSelector)
    (population : Option (Population α)) (draws : ℕ → ℕ → ℕ) :
    Except GoError (Population α) :=
  (selectTrace ts population draws).2

/-- `SimpleSumFitnessEvaluator.Evaluate`'s summation loop (src/unnamed/
part_005): convert each gene with `utils.ConvertToFloat64` (modelled by the
oracle `conv`) and accumulate; a cancellation pending at a loop iteration, or
a conversion failure, aborts with the corresponding error. -/
def evalSum {α : Type} (cancelled : Bool) (conv : α → Except GoError ℚ) :
    List α → ℚ → Except GoError ℚ
  | [], sum => .ok sum
  | v :: rest, sum =>
    if cancelled then
      .error (.fitnessE "context cancelled" .contextCanceled)
    else
      match conv v with
      | .error e =>
        .error (.fitnessE "invalid chromosome value"
          (.invalidChromosome "unable to convert chromosome value to float64" e))
      | .ok c => evalSum cancelled conv rest (sum + c)

/-- `SimpleSumFitnessEvaluator.Evaluate` (src/unnamed/part_005, lines 49-79):
cancellation is checked first, then emptiness, then the summation loop. -/
def evaluate {α : Type} (cancelled : Bool) (conv : α → Except GoError ℚ)
    (chromosome : List α) : Except GoError ℚ :=
  if cancelled then
    .error (.fitnessE "context cancelled" .contextCanceled)
  else if chromosome.length = 0 then
    .error (.fitnessE "cannot calculate fitness"
      (.invalidChromosome "empty chromosome found" .nilE))
  else
    evalSum cancelled conv chromosome 0

/-- `GeneticAlgorithmExecutor.RefreshFitness` (src/unnamed/part_012, lines
46-75).  Each individual is one unit of the errgroup: its evaluator call either
succeeds and writes that individual's fitness slot, or fails and leaves the
slot alone; units write only their own slot, so the stage outcome is the
per-individual map below.  The stage error is the first unit error in index
order (the errgroup returns one failing unit's error; index order is the
determinization), wrapped as a fitness-stage failure. -/
def refreshFitnessStage {α : Type} (cancelled : Bool)
    (conv : α → Except GoError ℚ) (pop : Population α) :
    Population α × Except GoError Unit :=
  if pop.individuals.length = 0 then
    (pop, .error .popEmpty)
  else
    let results := pop.individuals.map
      (fun s => (s, evaluate cancelled conv s.chromosome))
    let newIndividuals := results.map (fun sr =>
      match sr.2 with
      | .ok f => { sr.1 with fitness := f }
      | .error _ => sr.1)
    let firstErr := results.findSome? (fun sr =>
      match sr.2 with
      | .error e => some e
      | .ok _ => none)
    ({ individuals := newIndividuals },
     match firstErr with
     | some e => .error (.fitnessE "failed to evaluate fitness" e)
     | none => .ok ())

/-- The stage kinds of the executor's generation loop, in call order. -/
inductive StageKind : Type where
  | refreshFitness : StageKind
  | bestFitness : StageKind
  | selection : StageKind
  | crossoverStage : StageKind
  | mutation : StageKind
deriving DecidableEq, Repr

/-- Errors returned by `Loop`.  `atGeneration k i cause` models
`fmt.Errorf("failed to ... at generation %d: %w", i, err)` for stage `k`;
`finalRefresh cause` models the index-free
`fmt.Errorf("failed to refresh fitness: %w", err)` of the trailing refresh. -/
inductive LoopError : Type where
  | atGeneration (k : StageKind) (gen : ℕ) (cause : GoError) : LoopError
  | finalRefresh (cause : GoError) : LoopError
deriving DecidableEq, Repr

/-- The executor's five stage operations, as `Loop` sees them
(src/unnamed/part_012): `RefreshFitness ctx`, `population.BestFitness()`,
`PerformSelection()`, `PerformCrossover()` and `PerformMutation ctx`.  Each is
a function of the current population alone: the operators behind the stages
are pluggable interface values held by the executor, and their randomness
streams are already part of the function (one fixed outcome per reachable
population), which is the determinization of one run.  Stages that mutate
`e.population` in place return the updated population. -/
structure ExecOps (α : Type) where
  refresh : Population α → Except GoError (Population α)
  bestFitness : Population α → Except GoError ℚ
  selectStage : Population α → Except GoError (Population α)
  crossoverStage : Population α → Except GoError (Population α)
  mutationStage : Population α → Except GoError (Population α)

/-- One iteration of `Loop`'s body (src/unnamed/part_012, lines 161-196) at
generation index `i`: the five stage calls in order, each failure returned
immediately wrapped with its stage kind and the generation index. -/
def runGen {α : Type} (ops : ExecOps α) (i : ℕ) (pop : Population α) :
    Except LoopError (Population α) :=
  match ops.refresh pop with
  | .error e => .error (.atGeneration .refreshFitness i e)
  | .ok p1 =>
    match ops.bestFitness p1 with
    | .error e => .error (.atGeneration .bestFitness i e)
    | .ok _ =>
      match ops.selectStage p1 with
      | .error e => .error (.atGeneration .selection i e)
      | .ok p2 =>
        match ops.crossoverStage p2 with
        | .error e => .error (.atGeneration .crossoverStage i e)
        | .ok p3 =>
          match ops.mutationStage p3 with
          | .error e => .error (.atGeneration .mutation i e)
          | .ok p4 => .ok p4

/-- The generation loop of `GeneticAlgorithmExecutor.Loop`, counting down the
remaining generations with `i` the absolute generation index: on a stage
failure the tagged error is returned at once (no further stage calls); when
all generations are done, one trailing `RefreshFitness` runs and its result
(or its index-free wrapped error) is returned. -/
def loopAux {α : Type} (ops : ExecOps α) :
    ℕ → ℕ → Population α → Except LoopError (Population α)
  | 0, _, pop =>
    match ops.refresh pop with
    | .error e => .error (.finalRefresh e)
    | .ok p => .ok p
  | g + 1, i, pop =>
    match runGen ops i pop with
    | .error e => .error e
    | .ok p => loopAux ops g (i + 1) p

/-- `GeneticAlgorithmExecutor.Loop` (src/unnamed/part_012, lines 155-201),
run for `generations` generations starting at index 0.  The progress-bar call
at the top of each iteration is reporting glue that only fails on a broken
output stream and is not modelled. -/
def Loop {α : Type} (ops : ExecOps α) (generations : ℕ) (pop : Population α) :
    Except LoopError (Population α) :=
  loopAux ops generations 0 pop

/-- The population reached after `j` successful generations starting at
absolute generation index `i`, or `none` if some generation among them fails. -/
def reachFrom {α : Type} (ops : ExecOps α) :
    ℕ → ℕ → Population α → Option (Population α)
  | _, 0, pop => some pop
  | i, j + 1, pop =>
    match runGen ops i pop with
    | .error _ => none
    | .ok p => reachFrom ops (i + 1) j p

/-- `GeneticAlgorithmExecutor.PerformMutation` (src/unnamed/part_012, lines
77-105), with the same errgroup discipline as `refreshFitnessStage`:
per-individual mutator calls, each writing only its own chromosome on success.
Note the source wraps a failing stage with
`fitness.NewFitnessEvaluationError("failed to evaluate fitness", err)` — the
fitness-stage wrapper, not a mutation-stage one — which this translation
reproduces verbatim.  `gateSample i`, `d1 i`, `d2 i` are individual `i`'s
random draws. -/
def performMutationStage {α : Type} (cancelled : Bool) (rate : ℚ)
    (gateSample : ℕ → ℚ) (d1 d2 : ℕ → ℕ) (pop : Population α) :
    Population α × Except GoError Unit :=
  if pop.individuals.length = 0 then
    (pop, .error .popEmpty)
  else
    let results := pop.individuals.enum.map
      (fun is => (is.2, mutate rate cancelled (gateSample is.1) (d1 is.1) (d2 is.1) is.2.chromosome))
    let newIndividuals := results.map (fun sr =>
      match sr.2 with
      | .ok ch => { sr.1 with chromosome := ch }
      | .error _ => sr.1)
    let firstErr := results.findSome? (fun sr =>
      match sr.2 with
      | .error e => some e
      | .ok _ => none)
    ({ individuals := newIndividuals },
     match firstErr with
     | some e => .error (.fitnessE "failed to evaluate fitness" e)
     | none => .ok ())

/-- Whether an error value is (at top level) a `SelectionError`.  Every
configuration error of the engine (invalid tournament size, negative or
oversized elitism) is such a wrapper, so "not a configuration error" is
rendered below as this classifier returning `false`. -/
def GoError.isSelectionWrapper : GoError → Bool
  | .selectionE _ _ => true
  | _ => false

/-- A concrete stage assembly used to exercise `Loop`: fitness refresh,
best-fitness read and mutation always succeed, crossover doubles the
population, and selection fails as soon as the population has at least two
individuals. -/
def c7ops : ExecOps ℤ where
  refresh := fun p => .ok p
  bestFitness := fun _ => .ok 0
  selectStage := fun p =>
    if 2 ≤ p.individuals.length then .error (.selectionE "boom" .nilE) else .ok p
  crossoverStage := fun p => .ok { individuals := p.individuals ++ p.individuals }
  mutationStage := fun p => .ok p

/-- A one-individual starting population for exercising `Loop`. -/
def c7pop : Population ℤ :=
  { individuals := [{ chromosome := [1], fitness := 0 }] }

/-! ## Crossover: single-point recombination (claims C2 and C8) -/

/-- C2: for equal-length parents of length at least 2, a successful
`Crossover` splits at a point `c` in `{1, ..., n-1}`, offspring1 is parent1's
prefix of length `c` followed by parent2's suffix, offspring2 the converse,
both offspring have the parents' length, and the combined gene multiset of the
offspring equals the combined gene multiset of the parents. -/
theorem crossover_single_point_conserves {α : Type} (p1 p2 : List α) (r : ℕ)
    (hlen : p1.length = p2.length) (h2 : 2 ≤ p1.length) :
    ∃ c, 1 ≤ c ∧ c ≤ p1.length - 1 ∧
      crossover p1 p2 r = .ok (p1.take c ++ p2.drop c, p2.take c ++ p1.drop c) ∧
      (p1.take c ++ p2.drop c).length = p1.length ∧
      (p2.take c ++ p1.drop c).length = p1.length ∧
      ((p1.take c ++ p2.drop c : List α) : Multiset α) +
          ((p2.take c ++ p1.drop c : List α) : Multiset α)
        = (p1 : Multiset α) + (p2 : Multiset α) := by
  have hmod : r % (p1.length - 1) < p1.length - 1 := Nat.mod_lt _ (by omega)
  refine ⟨r % (p1.length - 1) + 1, by omega, by omega, ?_, ?_, ?_, ?_⟩
  · unfold crossover
    rw [if_neg (by omega), if_neg (by omega), if_neg (by omega)]
  · simp only [List.length_append, List.length_take, List.length_drop]
    omega
  · simp only [List.length_append, List.length_take, List.length_drop]
    omega
  · calc ((p1.take (r % (p1.length - 1) + 1) ++ p2.drop (r % (p1.length - 1) + 1) : List α) : Multiset α) +
          ((p2.take (r % (p1.length - 1) + 1) ++ p1.drop (r % (p1.length - 1) + 1) : List α) : Multiset α)
        = ((p1.take (r % (p1.length - 1) + 1) : List α) : Multiset α) +
            ((p2.drop (r % (p1.length - 1) + 1) : List α) : Multiset α) +
            (((p2.take (r % (p1.length - 1) + 1) : List α) : Multiset α) +
             ((p1.drop (r % (p1.length - 1) + 1) : List α) : Multiset α)) := by
          rw [← Multiset.coe_add, ← Multiset.coe_add]
      _ = ((p1.take (r % (p1.length - 1) + 1) : List α) : Multiset α) +
            ((p1.drop (r % (p1.length - 1) + 1) : List α) : Multiset α) +
            (((p2.take (r % (p1.length - 1) + 1) : List α) : Multiset α) +
             ((p2.drop (r % (p1.length - 1) + 1) : List α) : Multiset α)) := by
          abel
      _ = (p1 : Multiset α) + (p2 : Multiset α) := by
          rw [Multiset.coe_add, Multiset.coe_add, List.take_append_drop,
            List.take_append_drop]

/-- Witness for C2 at parents `[1, 2]` and `[3, 4]` with draw `0`. -/
theorem crossover_single_point_conserves_witness :
    ([1, 2] : List ℤ).length = ([3, 4] : List ℤ).length ∧
    2 ≤ ([1, 2] : List ℤ).length ∧
    ∃ c, 1 ≤ c ∧ c ≤ ([1, 2] : List ℤ).length - 1 ∧
      crossover [1, 2] [3, 4] 0 =
        .ok (([1, 2] : List ℤ).take c ++ ([3, 4] : List ℤ).drop c,
             ([3, 4] : List ℤ).take c ++ ([1, 2] : List ℤ).drop c) ∧
      (([1, 2] : List ℤ).take c ++ ([3, 4] : List ℤ).drop c).length = ([1, 2] : List ℤ).length ∧
      (([3, 4] : List ℤ).take c ++ ([1, 2] : List ℤ).drop c).length = ([1, 2] : List ℤ).length ∧
      ((([1, 2] : List ℤ).take c ++ ([3, 4] : List ℤ).drop c : List ℤ) : Multiset ℤ) +
          ((([3, 4] : List ℤ).take c ++ ([1, 2] : List ℤ).drop c : List ℤ) : Multiset ℤ)
        = (([1, 2] : List ℤ) : Multiset ℤ) + (([3, 4] : List ℤ) : Multiset ℤ) :=
  ⟨rfl, by decide, crossover_single_point_conserves [1, 2] [3, 4] 0 rfl (by decide)⟩

/-- C8: `Crossover` rejects empty (or nil) parents and mismatched lengths
with a chromosome-validity error — a `CrossoverError` wrapping an
`InvalidChromosomeError`, never a `SelectionError` (the wrapper kind of the
engine's configuration errors) — and returns two length-1 parents unchanged
as offspring1 and offspring2. -/
theorem crossover_validation {α : Type} (p1 p2 : List α) (r : ℕ) :
    (p1.length = 0 ∨ p2.length = 0 →
      crossover p1 p2 r = .error (.crossoverE "cannot perform crossover"
        (.invalidChromosome "parent chromosomes cannot be empty" .nilE))) ∧
    (p1.length ≠ 0 → p2.length ≠ 0 → p1.length ≠ p2.length →
      crossover p1 p2 r = .error (.crossoverE "cannot perform crossover"
        (.invalidChromosome "parent chromosomes must be of the same length" .nilE))) ∧
    (∀ e, crossover p1 p2 r = .error e →
      e.chainHasInvalidChromosome = true ∧ e.isSelectionWrapper = false) ∧
    (p1.length = 1 → p2.length = 1 → crossover p1 p2 r = .ok (p1, p2)) := by
  refine ⟨?_, ?_, ?_, ?_⟩
  · intro h
    unfold crossover
    rw [if_pos h]
  · intro h1 h2 h3
    unfold crossover
    rw [if_neg (by omega), if_pos h3]
  · intro e he
    unfold crossover at he
    split_ifs at he with h1 h2 h3
    · cases he
      exact ⟨rfl, rfl⟩
    · cases he
      exact ⟨rfl, rfl⟩
  · intro h1 h2
    unfold crossover
    rw [if_neg (by omega), if_neg (by omega), if_pos h1]

/-- Witness for C8: the empty-parent rejection at `([], [1])`, the
length-mismatch rejection at `([1, 2], [3])`, and the length-1 pass-through at
`([1], [2])`. -/
theorem crossover_validation_witness :
    crossover ([] : List ℤ) [1] 0 = .error (.crossoverE "cannot perform crossover"
      (.invalidChromosome "parent chromosomes cannot be empty" .nilE)) ∧
    crossover ([1, 2] : List ℤ) [3] 0 = .error (.crossoverE "cannot perform crossover"
      (.invalidChromosome "parent chromosomes must be of the same length" .nilE)) ∧
    crossover ([1] : List ℤ) [2] 5 = .ok ([1], [2]) :=
  ⟨(crossover_validation ([] : List ℤ) [1] 0).1 (by decide),
   (crossover_validation ([1, 2] : List ℤ) [3] 0).2.1 (by decide) (by decide) (by decide),
   (crossover_validation ([1] : List ℤ) [2] 5).2.2.2 (by decide) (by decide)⟩

/-! ## Tournament selection (claims C3, C6, C9 and C10) -/

/-- C9: `NewTournamentSelector` fails (with a configuration-flavored
`SelectionError`) exactly when `tournamentSize ≤ 0` or `numElites < 0`;
`Select` fails on a nil population or a nil/zero-length individuals sequence
with the "population empty" error, fails when `numElites` is at least the
population size, and otherwise its validation passes and it returns a
population. -/
theorem selector_validation :
    (∀ t n : ℤ, (∃ e, NewTournamentSelector t n = .error e) ↔ (t ≤ 0 ∨ n < 0)) ∧
    (∀ (α : Type) (ts : TournamentSelector) (draws : ℕ → ℕ → ℕ),
      select ts (none : Option (Population α)) draws =
        .error (.selectionE "cannot perform selection on nil or empty population" .popEmpty)) ∧
    (∀ (α : Type) (ts : TournamentSelector) (draws : ℕ → ℕ → ℕ),
      select ts (some ({ individuals := [] } : Population α)) draws =
        .error (.selectionE "cannot perform selection on nil or empty population" .popEmpty)) ∧
    (∀ (α : Type) (ts : TournamentSelector) (pop : Population α) (draws : ℕ → ℕ → ℕ),
      pop.individuals ≠ [] → (pop.individuals.length : ℤ) ≤ ts.numElites →
      select ts (some pop) draws =
        .error (.selectionE "number of elites is greater than or equal to population size" .nilE)) ∧
    (∀ (α : Type) (ts : TournamentSelector) (pop : Population α) (draws : ℕ → ℕ → ℕ),
      pop.individuals ≠ [] → ts.numElites < (pop.individuals.length : ℤ) →
      ∃ out, select ts (some pop) draws = .ok out) := by
  refine ⟨?_, ?_, ?_, ?_, ?_⟩
  · intro t n
    constructor
    · rintro ⟨e, he⟩
      unfold NewTournamentSelector at he
      split_ifs at he with h1 h2
      · exact Or.inl h1
      · exact Or.inr h2
    · intro h
      unfold NewTournamentSelector
      split_ifs with h1 h2
      · exact ⟨_, rfl⟩
      · exact ⟨_, rfl⟩
      · omega
  · intro α ts draws
    rfl
  · intro α ts draws
    rfl
  · intro α ts pop draws hne hle
    have h0 : ¬ pop.individuals.length = 0 := by
      simpa [List.length_eq_zero] using hne
    simp only [select, selectTrace]
    rw [if_neg h0, if_pos (by exact_mod_cast hle)]
  · intro α ts pop draws hne hlt
    have h0 : ¬ pop.individuals.length = 0 := by
      simpa [List.length_eq_zero] using hne
    simp only [select, selectTrace]
    rw [if_neg h0, if_neg (by exact_mod_cast not_le.mpr hlt)]
    exact ⟨_, rfl⟩

/-- Witness for C9: a rejected construction, the three empty-population
shapes, the oversized-elitism rejection, and a passing selection, all at
concrete inputs. -/
theorem selector_validation_witness :
    (∃ e, NewTournamentSelector 0 5 = .error e) ∧
    select { tournamentSize := 2, numElites := 1 } (none : Option (Population ℤ))
        (fun _ _ => 0) =
      .error (.selectionE "cannot perform selection on nil or empty population" .popEmpty) ∧
    select { tournamentSize := 2, numElites := 1 }
        (some ({ individuals := [] } : Population ℤ)) (fun _ _ => 0) =
      .error (.selectionE "cannot perform selection on nil or empty population" .popEmpty) ∧
    select { tournamentSize := 2, numElites := 3 }
        (some ({ individuals := [{ chromosome := [1], fitness := 0 },
                                 { chromosome := [2], fitness := 0 }] } : Population ℤ))
        (fun _ _ => 0) =
      .error (.selectionE "number of elites is greater than or equal to population size" .nilE) ∧
    (∃ out, select { tournamentSize := 2, numElites := 1 }
        (some ({ individuals := [{ chromosome := [1], fitness := 0 },
                                 { chromosome := [2], fitness := 0 }] } : Population ℤ))
        (fun _ _ => 0) = .ok out) :=
  ⟨(selector_validation.1 0 5).mpr (Or.inl (by decide)),
   selector_validation.2.1 ℤ { tournamentSize := 2, numElites := 1 } (fun _ _ => 0),
   selector_validation.2.2.1 ℤ { tournamentSize := 2, numElites := 1 } (fun _ _ => 0),
   selector_validation.2.2.2.1 ℤ { tournamentSize := 2, numElites := 3 } _ (fun _ _ => 0)
     (by decide) (by decide),
   selector_validation.2.2.2.2 ℤ { tournamentSize := 2, numElites := 1 } _ (fun _ _ => 0)
     (by decide) (by decide)⟩

/-- C10: `Select` never modifies its input population: whatever the outcome of
the call, the contents of the input's individuals sequence — order, every
chromosome and every fitness — are unchanged. -/
theorem select_preserves_input {α : Type} (ts : TournamentSelector)
    (population : Option (Population α)) (draws : ℕ → ℕ → ℕ) :
    (selectTrace ts population draws).1 = population := by
  cases population with
  | none => rfl
  | some pop =>
    simp only [selectTrace]
    split_ifs <;> rfl

/-- The start value of a left fold by `max` is a lower bound of the result. -/
theorem start_le_foldl_max : ∀ (l : List ℚ) (a : ℚ), a ≤ l.foldl max a := by
  intro l
  induction l with
  | nil => intro a; exact le_refl a
  | cons x t ih =>
    intro a
    exact le_trans (le_max_left a x) (ih (max a x))

/-- The strict-improvement fold of the tournament keeps the earliest-drawn
index attaining the maximum fitness over all drawn indices. -/
theorem tournamentWinnerIdx_find (f : ℕ → ℚ) :
    ∀ (cs : List ℕ) (w0 : ℕ),
      (w0 :: cs).find? (fun c => decide (f c = (cs.map f).foldl max (f w0)))
        = some (tournamentWinnerIdx f w0 cs) := by
  intro cs
  induction cs with
  | nil =>
    intro w0
    simp [tournamentWinnerIdx]
  | cons c tl ih =>
    intro w0
    have hunfold : tournamentWinnerIdx f w0 (c :: tl)
        = tournamentWinnerIdx f (if f w0 < f c then c else w0) tl := rfl
    have hm : ((c :: tl).map f).foldl max (f w0)
        = (tl.map f).foldl max (f (if f w0 < f c then c else w0)) := by
      by_cases h : f w0 < f c
      · simp [h, max_eq_right h.le]
      · simp [h, max_eq_left (not_lt.mp h)]
    rw [hunfold]
    by_cases h : f w0 < f c
    · simp only [hm, h, if_pos]
      have hw0 : ¬ (f w0 = (tl.map f).foldl max (f c)) :=
        ne_of_lt (lt_of_lt_of_le h (start_le_foldl_max (tl.map f) (f c)))
      rw [List.find?_cons_of_neg _ (by simpa [if_pos h] using hw0)]
      have := ih c
      simpa [if_pos h] using this
    · simp only [hm, h, if_neg, if_false]
      have hle : f c ≤ f w0 := not_lt.mp h
      have ihw := ih w0
      by_cases heq : f w0 = (tl.map f).foldl max (f w0)
      · rw [List.find?_cons_of_pos _ (by simpa using heq)]
        rw [List.find?_cons_of_pos _ (by simpa using heq)] at ihw
        exact ihw
      · have hlt : f w0 < (tl.map f).foldl max (f w0) :=
          lt_of_le_of_ne (start_le_foldl_max (tl.map f) (f w0)) heq
        have hc : ¬ (f c = (tl.map f).foldl max (f w0)) := by
          intro hc
          exact absurd (hc ▸ lt_of_le_of_lt hle hlt) (lt_irrefl _)
        rw [List.find?_cons_of_neg _ (by simpa using heq),
            List.find?_cons_of_neg _ (by simpa using hc)]
        rw [List.find?_cons_of_neg _ (by simpa using heq)] at ihw
        exact ihw

/-- C6: for every tournament slot, the winner kept by the fold over the drawn
candidates — where a later candidate replaces the current winner exactly when
its fitness strictly exceeds the current winner's — is the earliest-drawn
candidate attaining the maximum fitness among all drawn candidates, and its
fitness is that maximum. -/
theorem tournament_winner_earliest_max (α : Type) (pool : List (Solution α))
    (w0 : ℕ) (cs : List ℕ) :
    (w0 :: cs).find?
        (fun c => decide ((pool.getD c defaultSolution).fitness =
          (cs.map (fun idx => (pool.getD idx defaultSolution).fitness)).foldl max
            (pool.getD w0 defaultSolution).fitness))
      = some (tournamentWinnerIdx
          (fun idx => (pool.getD idx defaultSolution).fitness) w0 cs) ∧
    (pool.getD (tournamentWinnerIdx
          (fun idx => (pool.getD idx defaultSolution).fitness) w0 cs)
        defaultSolution).fitness
      = (cs.map (fun idx => (pool.getD idx defaultSolution).fitness)).foldl max
          (pool.getD w0 defaultSolution).fitness := by
  have h := tournamentWinnerIdx_find
    (fun idx => (pool.getD idx defaultSolution).fitness) cs w0
  refine ⟨h, ?_⟩
  have := List.find?_some h
  simpa using this

/-! ## Executor loop (claim C7) -/

/-- Every error produced by one generation's body carries the generation index
it ran at, wrapped around the failing stage's own error. -/
theorem runGen_error_carries_index {α : Type} (ops : ExecOps α) (i : ℕ)
    (pop : Population α) (e : LoopError) (h : runGen ops i pop = .error e) :
    ∃ k cause, e = .atGeneration k i cause := by
  unfold runGen at h
  cases h1 : ops.refresh pop with
  | error e1 => simp only [h1] at h; cases h; exact ⟨_, _, rfl⟩
  | ok p1 =>
    simp only [h1] at h
    cases h2 : ops.bestFitness p1 with
    | error e1 => simp only [h2] at h; cases h; exact ⟨_, _, rfl⟩
    | ok b =>
      simp only [h2] at h
      cases h3 : ops.selectStage p1 with
      | error e1 => simp only [h3] at h; cases h; exact ⟨_, _, rfl⟩
      | ok p2 =>
        simp only [h3] at h
        cases h4 : ops.crossoverStage p2 with
        | error e1 => simp only [h4] at h; cases h; exact ⟨_, _, rfl⟩
        | ok p3 =>
          simp only [h4] at h
          cases h5 : ops.mutationStage p3 with
          | error e1 => simp only [h5] at h; cases h; exact ⟨_, _, rfl⟩
          | ok p4 => simp only [h5] at h; cases h

/-- If the first `j` generations from index `i` succeed and generation `i + j`
fails, the loop with enough remaining generations returns that failure. -/
theorem loopAux_fail {α : Type} (ops : ExecOps α) :
    ∀ (j g i : ℕ) (pop p : Population α) (e : LoopError),
      j < g → reachFrom ops i j pop = some p → runGen ops (i + j) p = .error e →
      loopAux ops g i pop = .error e := by
  intro j
  induction j with
  | zero =>
    intro g i pop p e hlt hreach hrun
    obtain ⟨g', rfl⟩ : ∃ g', g = g' + 1 := ⟨g - 1, by omega⟩
    have hp : pop = p := by simpa [reachFrom] using hreach
    subst hp
    rw [Nat.add_zero] at hrun
    simp [loopAux, hrun]
  | succ j ih =>
    intro g i pop p e hlt hreach hrun
    obtain ⟨g', rfl⟩ : ∃ g', g = g' + 1 := ⟨g - 1, by omega⟩
    cases hr : runGen ops i pop with
    | error e1 =>
      rw [reachFrom, hr] at hreach
      cases hreach
    | ok q =>
      rw [reachFrom, hr] at hreach
      simp only [loopAux, hr]
      have harith : i + 1 + j = i + (j + 1) := by omega
      exact ih g' (i + 1) q p e (by omega) hreach (by rw [harith]; exact hrun)

/-- If all `g` generations from index `i` succeed and reach `p`, the loop
performs the single trailing fitness refresh on `p` and returns its result. -/
theorem loopAux_success {α : Type} (ops : ExecOps α) :
    ∀ (g i : ℕ) (pop p : Population α),
      reachFrom ops i g pop = some p →
      loopAux ops g i pop =
        (match ops.refresh p with
         | .error e => .error (.finalRefresh e)
         | .ok q => .ok q) := by
  intro g
  induction g with
  | zero =>
    intro i pop p hreach
    have hp : pop = p := by simpa [reachFrom] using hreach
    subst hp
    rfl
  | succ g ih =>
    intro i pop p hreach
    cases hr : runGen ops i pop with
    | error e1 =>
      rw [reachFrom, hr] at hreach
      cases hreach
    | ok q =>
      rw [reachFrom, hr] at hreach
      simp only [loopAux, hr]
      exact ih (i + 1) q p hreach

/-- C7: if any stage of `Loop` fails at generation `j`, the loop returns
immediately (no later generation runs) with that stage's error wrapped with
the generation index `j`; if all generations succeed, the loop performs one
final fitness refresh and returns the resulting population (or the final
refresh's index-free wrapped error). -/
theorem loop_failure_and_success {α : Type} (ops : ExecOps α) (gens : ℕ)
    (pop : Population α) :
    (∀ (i : ℕ) (p : Population α) (e : LoopError),
      runGen ops i p = .error e → ∃ k cause, e = .atGeneration k i cause) ∧
    (∀ (j : ℕ) (p : Population α) (e : LoopError),
      j < gens → reachFrom ops 0 j pop = some p → runGen ops j p = .error e →
      Loop ops gens pop = .error e) ∧
    (∀ (p q : Population α),
      reachFrom ops 0 gens pop = some p → ops.refresh p = .ok q →
      Loop ops gens pop = .ok q) ∧
    (∀ (p : Population α) (e : GoError),
      reachFrom ops 0 gens pop = some p → ops.refresh p = .error e →
      Loop ops gens pop = .error (.finalRefresh e)) := by
  refine ⟨runGen_error_carries_index ops, ?_, ?_, ?_⟩
  · intro j p e hlt hreach hrun
    exact loopAux_fail ops j gens 0 pop p e hlt hreach (by simpa using hrun)
  · intro p q hreach hrefresh
    rw [Loop, loopAux_success ops gens 0 pop p hreach, hrefresh]
  · intro p e hreach hrefresh
    rw [Loop, loopAux_success ops gens 0 pop p hreach, hrefresh]

/-- Witness for C7: with the `c7ops` stages, the run from the one-individual
population completes generation 0, and generation 1's selection stage fails;
`Loop` over 3 generations returns exactly that failure, wrapped with
generation index 1. -/
theorem loop_failure_and_success_witness :
    Loop c7ops 3 c7pop =
      .error (.atGeneration .selection 1 (.selectionE "boom" .nilE)) :=
  (loop_failure_and_success c7ops 3 c7pop).2.1 1
    { individuals := [{ chromosome := [1], fitness := 0 },
                      { chromosome := [1], fitness := 0 }] }
    (.atGeneration .selection 1 (.selectionE "boom" .nilE))
    (by omega) (by rfl) (by rfl)

/-! ## Swap mutation (claims C1 and part of C4) -/

/-- Pulling the `j`-th element of a list to the front while writing `x` into
its old slot is a permutation of putting `x` in front. -/
theorem get_cons_set_perm {α : Type} :
    ∀ (t : List α) (j : ℕ) (hj : j < t.length) (x : α),
      List.Perm (t.get ⟨j, hj⟩ :: t.set j x) (x :: t) := by
  intro t
  induction t with
  | nil => intro j hj x; exact absurd hj (Nat.not_lt_zero j)
  | cons y s ih =>
    intro j hj x
    cases j with
    | zero => exact List.Perm.swap x y s
    | succ k =>
      have hk : k < s.length := by simpa using hj
      exact List.Perm.trans (List.Perm.swap y (s.get ⟨k, hk⟩) (s.set k x))
        (List.Perm.trans (List.Perm.cons y (ih k hk x)) (List.Perm.swap x y s))

/-- Exchanging the elements at two positions `i < j` (reading both before
writing either) permutes the list. -/
theorem set_set_swap_perm {α : Type} :
    ∀ (l : List α) (i j : ℕ) (hi : i < l.length) (hj : j < l.length), i < j →
      List.Perm ((l.set i (l.get ⟨j, hj⟩)).set j (l.get ⟨i, hi⟩)) l := by
  intro l
  induction l with
  | nil => intro i j hi; exact absurd hi (Nat.not_lt_zero i)
  | cons x t ih =>
    intro i j hi hj hij
    cases i with
    | zero =>
      obtain ⟨k, rfl⟩ : ∃ k, j = k + 1 := ⟨j - 1, by omega⟩
      have hk : k < t.length := by simpa using hj
      simpa using get_cons_set_perm t k hk x
    | succ i =>
      obtain ⟨k, rfl⟩ : ∃ k, j = k + 1 := ⟨j - 1, by omega⟩
      have hi : i < t.length := by simpa using hi
      have hk : k < t.length := by simpa using hj
      simpa using List.Perm.cons x (ih i k hi hk (by omega))

/-- Writing back the element already stored at a position changes nothing. -/
theorem set_get_self {α : Type} (l : List α) (i : ℕ) (hi : i < l.length) :
    l.set i (l.get ⟨i, hi⟩) = l := by
  apply List.ext_getElem?
  intro n
  by_cases hn : i = n
  · subst hn
    rw [List.getElem?_set_self hi, List.getElem?_eq_getElem hi]
    rfl
  · exact List.getElem?_set_ne hn

/-- `listSwap` always permutes the list, in particular it preserves the
multiset of values. -/
theorem listSwap_perm {α : Type} (l : List α) (i j : ℕ) :
    List.Perm (listSwap l i j) l := by
  unfold listSwap
  cases h1 : l[i]? with
  | none => exact List.Perm.refl l
  | some a =>
    cases h2 : l[j]? with
    | none => exact List.Perm.refl l
    | some b =>
      obtain ⟨hi, ha⟩ := List.getElem?_eq_some_iff.mp h1
      obtain ⟨hj, hb⟩ := List.getElem?_eq_some_iff.mp h2
      have hga : l.get ⟨i, hi⟩ = a := ha
      have hgb : l.get ⟨j, hj⟩ = b := hb
      show List.Perm ((l.set i b).set j a) l
      rcases lt_trichotomy i j with hij | hij | hij
      · rw [← hga, ← hgb]
        exact set_set_swap_perm l i j hi hj hij
      · subst hij
        have hab : a = b := by
          have := h1.symm.trans h2
          exact Option.some.inj this
        subst hab
        rw [List.set_set, ← hga, set_get_self l i hi]
      · rw [List.set_comm b a l (by omega : i ≠ j), ← hga, ← hgb]
        exact set_set_swap_perm l j i hj hi hij

/-- Position-wise description of `listSwap` at two distinct in-range
positions. -/
theorem listSwap_getElem? {α : Type} (l : List α) (i j : ℕ)
    (hi : i < l.length) (hj : j < l.length) (hij : i ≠ j) (k : ℕ) :
    (listSwap l i j)[k]? = if k = i then l[j]? else if k = j then l[i]? else l[k]? := by
  have hmatch : listSwap l i j = (l.set i (l.get ⟨j, hj⟩)).set j (l.get ⟨i, hi⟩) := by
    unfold listSwap
    rw [List.getElem?_eq_getElem hi, List.getElem?_eq_getElem hj]
    rfl
  rw [hmatch]
  by_cases hki : k = i
  · subst hki
    rw [if_pos rfl, List.getElem?_set_ne (Ne.symm hij),
        List.getElem?_set_self hi, List.getElem?_eq_getElem hj]
    rfl
  · rw [if_neg hki]
    by_cases hkj : k = j
    · subst hkj
      rw [if_pos rfl, List.getElem?_set_self (by simpa using hj),
          List.getElem?_eq_getElem hi]
      rfl
    · rw [if_neg hkj, List.getElem?_set_ne (fun h => hkj h.symm),
          List.getElem?_set_ne (fun h => hki h.symm)]

/-- `listSwap` at two distinct in-range positions changes no position when the
two stored values are equal, and exactly the two positions otherwise. -/
theorem diffCount_listSwap {α : Type} [DecidableEq α] (l : List α) (i j : ℕ)
    (hi : i < l.length) (hj : j < l.length) (hij : i ≠ j) :
    diffCount l (listSwap l i j) = if l[i]? = l[j]? then 0 else 2 := by
  unfold diffCount
  by_cases heq : l[i]? = l[j]?
  · rw [if_pos heq]
    convert Finset.card_empty
    ext k
    simp only [Finset.mem_filter, Finset.mem_range, Finset.not_mem_empty, iff_false,
      not_and, Decidable.not_not]
    intro hk
    rw [listSwap_getElem? l i j hi hj hij k]
    split_ifs with h1 h2
    · subst h1; exact heq
    · subst h2; exact heq.symm
    · rfl
  · rw [if_neg heq]
    have hset : (Finset.range l.length).filter (fun k => l[k]? ≠ (listSwap l i j)[k]?)
        = {i, j} := by
      ext k
      simp only [Finset.mem_filter, Finset.mem_range, Finset.mem_insert,
        Finset.mem_singleton]
      constructor
      · rintro ⟨hk, hne⟩
        by_contra hcon
        push_neg at hcon
        apply hne
        rw [listSwap_getElem? l i j hi hj hij k, if_neg hcon.1, if_neg hcon.2]
      · rintro (hk | hk)
        · rw [hk]
          refine ⟨hi, ?_⟩
          rw [listSwap_getElem? l i j hi hj hij i, if_pos rfl]
          exact heq
        · rw [hk]
          refine ⟨hj, ?_⟩
          rw [listSwap_getElem? l i j hi hj hij j, if_neg (Ne.symm hij), if_pos rfl]
          exact fun h => heq h.symm
    rw [hset, Finset.card_insert_of_not_mem (by simpa using hij), Finset.card_singleton]

/-- C1 (amended): for a chromosome of length at least 2, when `Mutate` is not
cancelled and the probability gate fires (`rand.Float64() ≤ mutationRate`),
the call succeeds by swapping two distinct positions, the multiset of gene
values is unchanged, and the number of positions whose value changes is
exactly 2 when the two swapped genes hold different values and 0 when they
hold equal values (the claim's "exactly two positions differ" holds only in
the former case). -/
theorem mutate_swap_two_or_zero {α : Type} [DecidableEq α]
    (rate gateSample : ℚ) (r1 r2 : ℕ) (ch : List α)
    (h2 : 2 ≤ ch.length) (hgate : gateSample ≤ rate) :
    ∃ i j, i < ch.length ∧ j < ch.length ∧ i ≠ j ∧
      mutate rate false gateSample r1 r2 ch = .ok (listSwap ch i j) ∧
      ((listSwap ch i j : List α) : Multiset α) = (ch : Multiset α) ∧
      diffCount ch (listSwap ch i j) = (if ch[i]? = ch[j]? then 0 else 2) := by
  have hfp : r1 % ch.length < ch.length := Nat.mod_lt _ (by omega)
  have hsp : r2 % (ch.length - 1) < ch.length - 1 := Nat.mod_lt _ (by omega)
  refine ⟨r1 % ch.length,
    (if r1 % ch.length = r2 % (ch.length - 1) then r2 % (ch.length - 1) + 1
     else r2 % (ch.length - 1)), hfp, ?_, ?_, ?_, ?_, ?_⟩
  · split_ifs <;> omega
  · split_ifs with h
    · omega
    · exact h
  · unfold mutate
    rw [if_neg (by omega), if_neg (by omega), if_neg (not_lt.mpr hgate),
      if_neg (by simp)]
  · exact Multiset.coe_eq_coe.mpr (listSwap_perm ch _ _)
  · exact diffCount_listSwap ch _ _ hfp (by split_ifs <;> omega)
      (by split_ifs with h <;> omega)

/-- Witness for C1 (amended) at chromosome `[7, 8, 9]`, rate 1, gate sample 0,
draws 0 and 1. -/
theorem mutate_swap_two_or_zero_witness :
    2 ≤ ([7, 8, 9] : List ℤ).length ∧ (0 : ℚ) ≤ 1 ∧
    ∃ i j, i < ([7, 8, 9] : List ℤ).length ∧ j < ([7, 8, 9] : List ℤ).length ∧ i ≠ j ∧
      mutate 1 false 0 0 1 ([7, 8, 9] : List ℤ) = .ok (listSwap [7, 8, 9] i j) ∧
      ((listSwap ([7, 8, 9] : List ℤ) i j : List ℤ) : Multiset ℤ) =
        (([7, 8, 9] : List ℤ) : Multiset ℤ) ∧
      diffCount ([7, 8, 9] : List ℤ) (listSwap [7, 8, 9] i j) =
        (if ([7, 8, 9] : List ℤ)[i]? = ([7, 8, 9] : List ℤ)[j]? then 0 else 2) :=
  ⟨by decide, by norm_num,
   mutate_swap_two_or_zero 1 0 0 1 ([7, 8, 9] : List ℤ) (by decide) (by norm_num)⟩

/-- Counterexample to C1 as stated: on the duplicate-gene chromosome `[5, 5]`
the probability gate fires (sample `0 ≤ rate 1`), `Mutate` succeeds and takes
the swap branch (the only non-error, non-gate branch), yet zero positions —
not exactly two — differ from the input, because the two swapped genes hold
equal values. -/
theorem mutate_exactly_two_cex :
    (0 : ℚ) ≤ 1 ∧
    mutate 1 false 0 0 0 ([5, 5] : List ℤ) = .ok [5, 5] ∧
    diffCount ([5, 5] : List ℤ) ([5, 5] : List ℤ) = 0 := by
  refine ⟨by norm_num, ?_, by decide⟩
  rfl

/-! ## Cancellation before dispatch (claim C4) and stage wrapping (claim C5) -/

/-- Under a pending cancellation, the only successful outcome of a mutator
call is the gate-missing no-op, which returns the chromosome unchanged. -/
theorem mutate_cancel_ok {α : Type} (rate gateSample : ℚ) (r1 r2 : ℕ)
    (ch out : List α) (h : mutate rate true gateSample r1 r2 ch = .ok out) :
    out = ch := by
  unfold mutate at h
  split_ifs at h with h1 h2 h3 h4
  · exact (Except.ok.inj h).symm
  · exact absurd rfl h4

/-- With a pending cancellation every fitness-evaluation unit fails before
writing, so the per-unit writeback map is the identity. -/
theorem refresh_units_id {α : Type} (conv : α → Except GoError ℚ) :
    ∀ (l : List (Solution α)),
      ((l.map (fun s => (s, evaluate true conv s.chromosome))).map
        (fun sr => match sr.2 with
          | Except.ok f => { sr.1 with fitness := f }
          | Except.error _ => sr.1)) = l := by
  intro l
  induction l with
  | nil => rfl
  | cons x xs ih =>
    simp only [List.map_cons]
    exact congrArg (List.cons x) ih

/-- With a pending cancellation every mutation unit either fails before
writing or writes back its unchanged chromosome, so the per-unit writeback map
returns each individual unchanged. -/
theorem mutation_units_id {α : Type} (rate : ℚ) (gateSample : ℕ → ℚ)
    (d1 d2 : ℕ → ℕ) :
    ∀ (lp : List (ℕ × Solution α)),
      ((lp.map (fun is => (is.2,
          mutate rate true (gateSample is.1) (d1 is.1) (d2 is.1) is.2.chromosome))).map
        (fun sr => match sr.2 with
          | Except.ok ch => { sr.1 with chromosome := ch }
          | Except.error _ => sr.1)) = lp.map (fun is => is.2) := by
  intro lp
  induction lp with
  | nil => rfl
  | cons p ps ih =>
    simp only [List.map_cons]
    have hhead : (match mutate rate true (gateSample p.1) (d1 p.1) (d2 p.1)
          p.2.chromosome with
        | Except.ok ch => { p.2 with chromosome := ch }
        | Except.error _ => p.2) = p.2 := by
      cases hm : mutate rate true (gateSample p.1) (d1 p.1) (d2 p.1) p.2.chromosome with
      | ok ch =>
        have := mutate_cancel_ok rate (gateSample p.1) (d1 p.1) (d2 p.1)
          p.2.chromosome ch hm
        subst this
        rfl
      | error e => rfl
    rw [hhead, ih]

/-- C4 (amended): if the cancellation signal is already cancelled before the
evaluation or mutation stage dispatches, then (i) every evaluator call fails
with the cancellation-flavored fitness error and the stage leaves every
individual — fitness included — unchanged, returning the wrapped cancellation
error; (ii) every mutator call leaves its chromosome unchanged, returns the
cancellation-flavored mutation error whenever its probability gate fires on a
valid chromosome, but returns plain success when the gate misses (the source
checks the Bernoulli gate before the cancellation signal), so the mutation
stage also leaves the population unchanged.  The claim's "every mutator call
returns a cancellation-flavored error" fails for gate-missing calls. -/
theorem cancelled_before_dispatch {α : Type} (conv : α → Except GoError ℚ)
    (rate : ℚ) (gateSample : ℕ → ℚ) (d1 d2 : ℕ → ℕ) :
    (∀ ch : List α,
      evaluate true conv ch = .error (.fitnessE "context cancelled" .contextCanceled)) ∧
    (∀ l : List (Solution α), l ≠ [] →
      refreshFitnessStage true conv { individuals := l } =
        ({ individuals := l }, .error (.fitnessE "failed to evaluate fitness"
          (.fitnessE "context cancelled" .contextCanceled)))) ∧
    (∀ (g : ℚ) (r1 r2 : ℕ) (ch out : List α),
      mutate rate true g r1 r2 ch = .ok out → out = ch) ∧
    (∀ (g : ℚ) (r1 r2 : ℕ) (ch : List α), 2 ≤ ch.length → g ≤ rate →
      mutate rate true g r1 r2 ch =
        .error (.mutationE "context cancelled" .contextCanceled)) ∧
    (∀ pop : Population α,
      (performMutationStage true rate gateSample d1 d2 pop).1 = pop) := by
  refine ⟨fun ch => rfl, ?_, ?_, ?_, ?_⟩
  · intro l hl
    obtain ⟨x, xs, rfl⟩ := List.exists_cons_of_ne_nil hl
    unfold refreshFitnessStage
    rw [if_neg (by simp)]
    rw [Prod.mk.injEq]
    exact ⟨congrArg Population.mk (refresh_units_id conv (x :: xs)), rfl⟩
  · intro g r1 r2 ch out h
    exact mutate_cancel_ok rate g r1 r2 ch out h
  · intro g r1 r2 ch h2 hg
    unfold mutate
    rw [if_neg (by omega), if_neg (by omega), if_neg (not_lt.mpr hg), if_pos rfl]
  · intro pop
    unfold performMutationStage
    split_ifs with h0
    · rfl
    · simp only
      congr 1
      rw [mutation_units_id rate gateSample d1 d2 pop.individuals.enum]
      exact List.enum_map_snd pop.individuals

/-- Witness for C4 (amended) on a two-individual population with chromosomes
`[1, 2]` and `[3, 4]`: the cancelled evaluation stage fails and changes
nothing, the cancelled gate-firing mutator call fails with the cancellation
error, and the cancelled mutation stage changes nothing. -/
theorem cancelled_before_dispatch_witness :
    evaluate true (fun q : ℚ => .ok q) [1, 2] =
      .error (.fitnessE "context cancelled" .contextCanceled) ∧
    refreshFitnessStage true (fun q : ℚ => .ok q)
        { individuals := [{ chromosome := [1, 2], fitness := 0 },
                          { chromosome := [3, 4], fitness := 0 }] } =
      ({ individuals := [{ chromosome := [1, 2], fitness := 0 },
                         { chromosome := [3, 4], fitness := 0 }] },
       .error (.fitnessE "failed to evaluate fitness"
         (.fitnessE "context cancelled" .contextCanceled))) ∧
    mutate (1 : ℚ) true 0 0 0 ([1, 2] : List ℚ) =
      .error (.mutationE "context cancelled" .contextCanceled) ∧
    (performMutationStage true (1 : ℚ) (fun _ => 0) (fun _ => 0) (fun _ => 0)
        ({ individuals := [{ chromosome := [1, 2], fitness := 0 },
                           { chromosome := [3, 4], fitness := 0 }] } : Population ℚ)).1 =
      { individuals := [{ chromosome := [1, 2], fitness := 0 },
                        { chromosome := [3, 4], fitness := 0 }] } :=
  ⟨(cancelled_before_dispatch (fun q : ℚ => .ok q) 1 (fun _ => 0) (fun _ => 0)
      (fun _ => 0)).1 [1, 2],
   (cancelled_before_dispatch (fun q : ℚ => .ok q) 1 (fun _ => 0) (fun _ => 0)
      (fun _ => 0)).2.1 _ (by simp),
   (cancelled_before_dispatch (fun q : ℚ => .ok q) 1 (fun _ => 0) (fun _ => 0)
      (fun _ => 0)).2.2.2.1 0 0 0 [1, 2] (by decide) (by norm_num),
   (cancelled_before_dispatch (fun q : ℚ => .ok q) 1 (fun _ => 0) (fun _ => 0)
      (fun _ => 0)).2.2.2.2 _⟩

/-- Counterexample to C4 as stated: with the signal already cancelled, a
mutator call whose probability gate misses (`rand.Float64() = 1 > rate = 0`)
returns success, not a cancellation-flavored error, and a whole mutation stage
of such calls reports no error at all. -/
theorem mutate_cancelled_gate_miss_cex :
    mutate 0 true 1 0 0 ([1, 2] : List ℤ) = .ok [1, 2] ∧
    performMutationStage true (0 : ℚ) (fun _ => 1) (fun _ => 0) (fun _ => 0)
        ({ individuals := [{ chromosome := [1, 2], fitness := 0 }] } : Population ℤ) =
      ({ individuals := [{ chromosome := [1, 2], fitness := 0 }] }, .ok ()) :=
  ⟨rfl, rfl⟩

/-- C5: the executor's mutation stage wraps a failing mutator call in the
fitness-stage wrapper `FitnessEvaluationError` with message "failed to
evaluate fitness" — not in a mutation-stage wrapper — as shown here on a
population whose single individual has the too-short chromosome `[1]`.  The
underlying `MutationError` and its `InvalidChromosomeError` cause remain
reachable through the wrapper's `Unwrap` chain, but the top-level wrapper is
the wrong stage's. -/
theorem performMutation_wraps_with_fitness_wrapper :
    performMutationStage false (0 : ℚ) (fun _ => 0) (fun _ => 0) (fun _ => 0)
        ({ individuals := [{ chromosome := [1], fitness := 0 }] } : Population ℤ) =
      ({ individuals := [{ chromosome := [1], fitness := 0 }] },
       .error (.fitnessE "failed to evaluate fitness"
         (.mutationE "cannot mutate chromosome"
           (.invalidChromosome "chromosome must contain at least 2 genes" .nilE)))) ∧
    GoError.isMutationWrapper (.fitnessE "failed to evaluate fitness"
      (.mutationE "cannot mutate chromosome"
        (.invalidChromosome "chromosome must contain at least 2 genes" .nilE))) = false ∧
    GoError.isFitnessWrapper (.fitnessE "failed to evaluate fitness"
      (.mutationE "cannot mutate chromosome"
        (.invalidChromosome "chromosome must contain at least 2 genes" .nilE))) = true ∧
    GoError.chainHasInvalidChromosome (.fitnessE "failed to evaluate fitness"
      (.mutationE "cannot mutate chromosome"
        (.invalidChromosome "chromosome must contain at least 2 genes" .nilE))) = true :=
  ⟨rfl, rfl, rfl, rfl⟩

/-! ## Elitism preservation (claim C3) -/

/-- The descending sort used by the elitism branch is pairwise sorted by
non-increasing fitness. -/
theorem sortDesc_pairwise {α : Type} (l : List (Solution α)) :
    (sortDesc l).Pairwise (fun a b => b.fitness ≤ a.fitness) := by
  have h := @List.sorted_mergeSort (Solution α)
    (fun a b : Solution α => decide (b.fitness ≤ a.fitness))
    (fun a b c hab hbc => by
      simp only [decide_eq_true_eq] at hab hbc ⊢
      exact le_trans hbc hab)
    (fun a b => by
      simp only [Bool.or_eq_true, decide_eq_true_eq]
      exact le_total b.fitness a.fitness)
    l
  have := List.Pairwise.imp (fun hab => by simpa using hab) h
  exact this

/-- The descending sort permutes the individuals. -/
theorem sortDesc_perm {α : Type} (l : List (Solution α)) :
    List.Perm (sortDesc l) l :=
  List.mergeSort_perm l _

/-- C3: for a population of size `N` and a selector with `0 < numElites < N`,
`Select` succeeds with exactly `N` individuals, and the input multiset splits
into a block `topk` of `numElites` individuals, each of fitness at least
every remaining individual's (the `numElites` highest-fitness individuals by
value), that is contained — chromosomes and fitness values unchanged — in the
output multiset. -/
theorem select_preserves_top_elites {α : Type} (ts : TournamentSelector)
    (pop : Population α) (draws : ℕ → ℕ → ℕ)
    (hk : 0 < ts.numElites) (hkN : ts.numElites < (pop.individuals.length : ℤ)) :
    ∃ out, select ts (some pop) draws = .ok out ∧
      out.individuals.length = pop.individuals.length ∧
      ∃ topk rest : Multiset (Solution α),
        (pop.individuals : Multiset (Solution α)) = topk + rest ∧
        Multiset.card topk = ts.numElites.toNat ∧
        (∀ a ∈ topk, ∀ b ∈ rest, b.fitness ≤ a.fitness) ∧
        topk ≤ (out.individuals : Multiset (Solution α)) := by
  have hkNat : ts.numElites.toNat < pop.individuals.length := by omega
  have h0 : ¬ pop.individuals.length = 0 := by omega
  have hge : ¬ ts.numElites ≥ (pop.individuals.length : ℤ) := not_le.mpr hkN
  have hlenS : (sortDesc pop.individuals).length = pop.individuals.length :=
    (sortDesc_perm pop.individuals).length_eq
  have hdeep : ((sortDesc pop.individuals).take ts.numElites.toNat).map Solution.deepCopy
      = (sortDesc pop.individuals).take ts.numElites.toNat := by
    have hid : ∀ s ∈ (sortDesc pop.individuals).take ts.numElites.toNat,
        Solution.deepCopy s = s := fun s _ => rfl
    rw [List.map_congr_left hid]
    exact List.map_id _
  simp only [select, selectTrace]
  rw [if_neg h0, if_neg hge, if_pos hk]
  refine ⟨_, rfl, ?_, ?_⟩
  · simp only [List.length_append, List.length_map, List.length_range,
      List.length_take, hlenS]
    omega
  · refine ⟨((sortDesc pop.individuals).take ts.numElites.toNat : List (Solution α)),
      ((sortDesc pop.individuals).drop ts.numElites.toNat : List (Solution α)),
      ?_, ?_, ?_, ?_⟩
    · have h1 : (pop.individuals : Multiset (Solution α))
          = (sortDesc pop.individuals : Multiset (Solution α)) :=
        Multiset.coe_eq_coe.mpr (sortDesc_perm pop.individuals).symm
      rw [h1]
      conv_lhs => rw [← List.take_append_drop ts.numElites.toNat
        (sortDesc pop.individuals)]
      rw [← Multiset.coe_add]
    · rw [Multiset.coe_card, List.length_take]
      omega
    · intro a ha b hb
      have hS : (sortDesc pop.individuals).Pairwise
          (fun a b => b.fitness ≤ a.fitness) := sortDesc_pairwise pop.individuals
      rw [← List.take_append_drop ts.numElites.toNat (sortDesc pop.individuals)]
        at hS
      have := (List.pairwise_append.mp hS).2.2
      exact this a (Multiset.mem_coe.mp ha) b (Multiset.mem_coe.mp hb)
    · simp only [hdeep]
      rw [← Multiset.coe_add]
      exact Multiset.le_add_right _ _

/-- Witness for C3: a three-individual population with one elite slot; the
theorem is applied at tournament size 2 and the constant draw 0. -/
theorem select_preserves_top_elites_witness :
    (0 : ℤ) < 1 ∧ (1 : ℤ) < (3 : ℤ) ∧
    (∃ out, select { tournamentSize := 2, numElites := 1 }
        (some ({ individuals := [{ chromosome := [1], fitness := 5 },
                                 { chromosome := [2], fitness := 9 },
                                 { chromosome := [3], fitness := 7 }] } : Population ℤ))
        (fun _ _ => 0) = .ok out ∧
      out.individuals.length = 3 ∧
      ∃ topk rest : Multiset (Solution ℤ),
        (([{ chromosome := [1], fitness := 5 },
            { chromosome := [2], fitness := 9 },
            { chromosome := [3], fitness := 7 }] : List (Solution ℤ)) :
          Multiset (Solution ℤ)) = topk + rest ∧
        Multiset.card topk = 1 ∧
        (∀ a ∈ topk, ∀ b ∈ rest, b.fitness ≤ a.fitness) ∧
        topk ≤ (out.individuals : Multiset (Solution ℤ))) :=
  ⟨by decide, by decide,
   select_preserves_top_elites { tournamentSize := 2, numElites := 1 }
     ({ individuals := [{ chromosome := [1], fitness := 5 },
                        { chromosome := [2], fitness := 9 },
                        { chromosome := [3], fitness := 7 }] } : Population ℤ)
     (fun _ _ => 0) (by decide) (by decide)⟩
